import Mathlib

/-!
Verification of the SecLab bot authenticated request protocol.

A shallow embedding of `sec-lab-bot.py`: the wire codec
(`wire_decode_int` / `wire_encode_int`, little-endian, mirroring the
Python `int.from_bytes` / `int.to_bytes`), the freshness check
(`timestamp_verify`), the request builder (`make_request`, HMAC-SHA256
over `flag || timestamp`), the key-file writer (`write_key_to_file`,
base64) and the request operation (`ssl_request`) with its try/except
error handling.

Bytes are modelled as `List Nat` (each element `< 256` for well-formed data),
machine integers as `Int`/`Nat` with explicit `% 2^w` where overflow matters,
Python exceptions as `Except String` / `Option`.
-/

namespace SecLabBot

/-! ## Constants (from the top of `sec-lab-bot.py`) -/

def MAX_AGE : Int := 10

def FLAG_OPEN_REQ : Nat := 0xFF
def FLAG_CLOSE_REQ : Nat := 0x00
def FLAG_KEYGEN_REQ : Nat := 0xAA
def FLAG_ALL_GOOD : Nat := 0xFF
def FLAG_KEYGEN_ACK : Nat := 0x55

def EXIT_SUCCESS : Bool := true
def EXIT_FAILURE : Bool := false

/-! ## Wire codec

`BYTE_ORDER` is little.  `wire_decode_int` mirrors
`int.from_bytes(data, byteorder=BYTE_ORDER, signed=sgn)`, which is total:
the empty byte string decodes to 0.  `wire_encode_int` mirrors
`i.to_bytes(size, byteorder=BYTE_ORDER, signed=sgn)`, which raises
`OverflowError` when `i` is not representable — modelled as `Option`. -/

/-- Value of a little-endian byte list (first byte least significant). -/
def leVal : List Nat → Nat
  | [] => 0
  | b :: rest => b + 256 * leVal rest

/-- Little-endian bytes of `n`, exactly `size` bytes (truncating above). -/
def leBytes : Nat → Nat → List Nat
  | _, 0 => []
  | n, s + 1 => n % 256 :: leBytes (n / 256) s

/-- Decoder `wire_decode_int(data, sgn)`: little-endian; twos-complement
when `sgn` and the top bit of the last byte is set.  Total, like
`int.from_bytes`. -/
def wire_decode_int (data : List Nat) (sgn : Bool) : Int :=
  let u := leVal data
  if sgn ∧ 2 ^ (8 * data.length) ≤ 2 * u then
    (u : Int) - 2 ^ (8 * data.length)
  else (u : Int)

/-- Encoder `wire_encode_int(i, size, sgn)`: little-endian fixed width;
`none` when `i` does not fit (Python raises `OverflowError`). -/
def wire_encode_int (i : Int) (size : Nat) (sgn : Bool) : Option (List Nat) :=
  if sgn then
    if -(2 ^ (8 * size) : Int) ≤ 2 * i ∧ 2 * i < (2 ^ (8 * size) : Int) then
      some (leBytes (i % ((2 : Int) ^ (8 * size))).toNat size)
    else none
  else
    if 0 ≤ i ∧ i < (2 ^ (8 * size) : Int) then
      some (leBytes i.toNat size)
    else none

/-- Freshness check `timestamp_verify(tdata)`: the decoded (signed)
timestamp is fresh when `now - t <= MAX_AGE`.  The current time is passed
explicitly (the source reads the wall clock). -/
def timestamp_verify (now : Int) (tdata : List Nat) : Bool :=
  decide (now - wire_decode_int tdata true ≤ MAX_AGE)

/-! ## Base64 encoding (`base64.b64encode`, used by `write_key_to_file`) -/

/-- ASCII code of the base64 alphabet character at index `n < 64`. -/
def b64char (n : Nat) : Nat :=
  if n < 26 then 65 + n
  else if n < 52 then 97 + (n - 26)
  else if n < 62 then 48 + (n - 52)
  else if n = 62 then 43
  else 47

/-- Encoding `base64.b64encode`: standard alphabet, padded with the
equals sign (ASCII 61). -/
def b64e : List Nat → List Nat
  | b0 :: b1 :: b2 :: rest =>
      b64char (b0 / 4) :: b64char (b0 % 4 * 16 + b1 / 16) ::
      b64char (b1 % 16 * 4 + b2 / 64) :: b64char (b2 % 64) :: b64e rest
  | [b0, b1] => [b64char (b0 / 4), b64char (b0 % 4 * 16 + b1 / 16),
      b64char (b1 % 16 * 4), 61]
  | [b0] => [b64char (b0 / 4), b64char (b0 % 4 * 16), 61, 61]
  | [] => []

/-! ## SHA-256 (`hashlib.sha256`) and HMAC (`hmac.new(..., digestmod=sha256)`)

A direct FIPS 180-4 implementation over byte lists, words as `Nat % 2^32`. -/

/-- Truncate to a 32-bit word. -/
def w32 (n : Nat) : Nat := n % 4294967296

/-- Rotate a 32-bit word right by `n`. -/
def rotr32 (n x : Nat) : Nat := w32 ((x >>> n) ||| (x <<< (32 - n)))

def bsig0 (x : Nat) : Nat := rotr32 2 x ^^^ rotr32 13 x ^^^ rotr32 22 x

def bsig1 (x : Nat) : Nat := rotr32 6 x ^^^ rotr32 11 x ^^^ rotr32 25 x

def ssig0 (x : Nat) : Nat := rotr32 7 x ^^^ rotr32 18 x ^^^ (x >>> 3)

def ssig1 (x : Nat) : Nat := rotr32 17 x ^^^ rotr32 19 x ^^^ (x >>> 10)

/-- SHA-256 choice function (complement taken within 32 bits). -/
def chF (x y z : Nat) : Nat := (x &&& y) ^^^ ((x ^^^ 4294967295) &&& z)

/-- SHA-256 majority function. -/
def majF (x y z : Nat) : Nat := (x &&& y) ^^^ (x &&& z) ^^^ (y &&& z)

/-- The 64 SHA-256 round constants (FIPS 180-4, written in decimal). -/
def K256 : List Nat :=
  [1116352408, 1899447441, 3049323471, 3921009573, 961987163,
   1508970993, 2453635748, 2870763221, 3624381080, 310598401,
   607225278, 1426881987, 1925078388, 2162078206, 2614888103,
   3248222580, 3835390401, 4022224774, 264347078, 604807628,
   770255983, 1249150122, 1555081692, 1996064986, 2554220882,
   2821834349, 2952996808, 3210313671, 3336571891, 3584528711,
   113926993, 338241895, 666307205, 773529912, 1294757372,
   1396182291, 1695183700, 1986661051, 2177026350, 2456956037,
   2730485921, 2820302411, 3259730800, 3345764771, 3516065817,
   3600352804, 4094571909, 275423344, 430227734, 506948616,
   659060556, 883997877, 958139571, 1322822218, 1537002063,
   1747873779, 1955562222, 2024104815, 2227730452, 2361852424,
   2428436474, 2756734187, 3204031479, 3329325298]

/-- SHA-256 working state: eight 32-bit words. -/
structure SHAState where
  a : Nat
  b : Nat
  c : Nat
  d : Nat
  e : Nat
  f : Nat
  g : Nat
  h : Nat
  deriving DecidableEq

/-- SHA-256 initial hash value (FIPS 180-4, written in decimal). -/
def H0 : SHAState :=
  ⟨1779033703, 3144134277, 1013904242, 2773480762,
   1359893119, 2600822924, 528734635, 1541459225⟩

/-- One compression round; `kw` is `K[i] + W[i]`. -/
def shaRound (s : SHAState) (kw : Nat) : SHAState :=
  let t1 := w32 (s.h + bsig1 s.e + chF s.e s.f s.g + kw)
  let t2 := w32 (bsig0 s.a + majF s.a s.b s.c)
  ⟨w32 (t1 + t2), s.a, s.b, s.c, w32 (s.d + t1), s.e, s.f, s.g⟩

/-- Big-endian 32-bit words from bytes (4 bytes per word). -/
def bytesToWordsBE : List Nat → List Nat
  | b0 :: b1 :: b2 :: b3 :: rest =>
      (b0 * 16777216 + b1 * 65536 + b2 * 256 + b3) :: bytesToWordsBE rest
  | _ => []

/-- Next message-schedule word, given the previous words newest-first. -/
def schedNext (l : List Nat) : Nat :=
  w32 (ssig1 (l.getD 1 0) + l.getD 6 0 + ssig0 (l.getD 14 0) + l.getD 15 0)

/-- Extend a newest-first schedule by `n` words. -/
def schedExtend : Nat → List Nat → List Nat
  | 0, l => l
  | n + 1, l => schedExtend n (schedNext l :: l)

/-- The 64-word message schedule of a block (given as 16 words, in order). -/
def schedule (ws : List Nat) : List Nat := (schedExtend 48 ws.reverse).reverse

/-- Compress one 64-byte block into the chaining state. -/
def processBlock (s : SHAState) (block : List Nat) : SHAState :=
  let ws := schedule (bytesToWordsBE block)
  let kws := (K256.zip ws).map (fun p => p.1 + p.2)
  let t := kws.foldl shaRound s
  ⟨w32 (s.a + t.a), w32 (s.b + t.b), w32 (s.c + t.c), w32 (s.d + t.d),
   w32 (s.e + t.e), w32 (s.f + t.f), w32 (s.g + t.g), w32 (s.h + t.h)⟩

/-- Big-endian 8-byte encoding (for the length field of the padding). -/
def beBytes8 (n : Nat) : List Nat :=
  [n / 72057594037927936 % 256, n / 281474976710656 % 256,
   n / 1099511627776 % 256, n / 4294967296 % 256,
   n / 16777216 % 256, n / 65536 % 256, n / 256 % 256, n % 256]

/-- SHA-256 padding: `0x80`, zeros to 56 mod 64, 8-byte big-endian bit length. -/
def sha256pad (msg : List Nat) : List Nat :=
  msg ++ 128 :: List.replicate ((119 - msg.length % 64) % 64) 0 ++
    beBytes8 (8 * msg.length)

/-- Split into 64-byte blocks. -/
def chunks64 (l : List Nat) : List (List Nat) :=
  if h : l = [] then []
  else l.take 64 :: chunks64 (l.drop 64)
  termination_by l.length
  decreasing_by
    simp only [List.length_drop]
    have : 0 < l.length := List.length_pos.mpr h
    omega

/-- Big-endian bytes of a 32-bit word. -/
def wordBE (w : Nat) : List Nat :=
  [w / 16777216 % 256, w / 65536 % 256, w / 256 % 256, w % 256]

/-- The digest `hashlib.sha256(msg).digest()`. -/
def sha256 (msg : List Nat) : List Nat :=
  let s := (chunks64 (sha256pad msg)).foldl processBlock H0
  wordBE s.a ++ wordBE s.b ++ wordBE s.c ++ wordBE s.d ++
    wordBE s.e ++ wordBE s.f ++ wordBE s.g ++ wordBE s.h

/-- The MAC `hmac.new(key, msg, digestmod=hashlib.sha256).digest()`
(RFC 2104, block size 64). -/
def hmac_sha256 (key msg : List Nat) : List Nat :=
  let k1 := if 64 < key.length then sha256 key else key
  let k0 := k1 ++ List.replicate (64 - k1.length) 0
  sha256 ((k0.map fun b => b ^^^ 92) ++
    sha256 ((k0.map fun b => b ^^^ 54) ++ msg))

/-! ## Request builder (`make_request`)

`make_request(reqtype)` builds `flag(1) || timestamp(8, signed LE) || mac(32)`
with `mac = HMAC-SHA256(KEY, flag || timestamp)`.  The in-memory key and the
current time are passed explicitly (the source uses the module-level `KEY`
and `timestamp()`).  An unknown `reqtype` leaves `val = None`, so
`wire_encode_int(None, 1)` raises (`AttributeError`): modelled as `none`.
An unrepresentable timestamp likewise propagates the encoder failure. -/

def make_request (reqtype : String) (now : Int) (key : List Nat) :
    Option (List Nat) :=
  let val : Option Nat :=
    if reqtype = "open" then some FLAG_OPEN_REQ
    else if reqtype = "close" then some FLAG_CLOSE_REQ
    else if reqtype = "keygen" then some FLAG_KEYGEN_REQ
    else none
  match val with
  | none => none
  | some v =>
    match wire_encode_int (v : Int) 1 false, wire_encode_int now 8 true with
    | some fb, some tb =>
        let data := fb ++ tb
        some (data ++ hmac_sha256 key data)
    | _, _ => none

/-! ## The request operation (`ssl_request`)

State visible to the protocol: the in-memory `KEY` (read at startup, used by
`make_request`) and the content of the key file `psk.b64`
(`write_key_to_file` stores `b64encode(key)`). -/

structure World where
  /-- The module-level `KEY` (raw bytes, already base64-decoded at startup). -/
  key : List Nat
  /-- The content of `KEY_FILE` (`psk.b64`). -/
  file : List Nat
  deriving DecidableEq

/-- Writer `write_key_to_file(key)`: overwrite the key file with
`b64encode(key)`. -/
def write_key_to_file (k : List Nat) (w : World) : World :=
  { w with file := b64e k }

/-- Reading from the channel, a list of the bytes the server sends;
`conn.recv(n)` returns *up to* `n` bytes (fewer when the peer sent fewer —
a short read). -/
def recvN (chan : List Nat) (n : Nat) : List Nat × List Nat :=
  (chan.take n, chan.drop n)

/-- The body of `ssl_request`: everything inside the `try` block.
`nowS` is the clock when the request is built, `nowV` the clock at
`timestamp_verify` (two separate `time.time()` reads).  `Except.error`
models a raised exception. -/
def ssl_request_body (reqtype : String) (nowS nowV : Int) (w : World)
    (chan : List Nat) : Except String World :=
  match make_request reqtype nowS w.key with
  | none => Except.error "make_request raised"
  | some _req =>
    if reqtype = "open" ∨ reqtype = "close" then
      if wire_decode_int (recvN chan 1).1 false ≠ (FLAG_ALL_GOOD : Int) then
        Except.error "client received bad response"
      else Except.ok w
    else if reqtype = "keygen" then
      if wire_decode_int (recvN chan 1).1 false ≠ (FLAG_KEYGEN_ACK : Int) then
        Except.error "client received bad response"
      else if ¬ timestamp_verify nowV (recvN (recvN chan 1).2 8).1 then
        Except.error "client received stale response"
      else Except.ok (write_key_to_file (recvN (recvN (recvN chan 1).2 8).2 32).1 w)
    else Except.ok w

/-- The operation `ssl_request(reqtype)`: the try/except wrapper — any
exception in the body is caught and turned into `EXIT_FAILURE`; otherwise
`EXIT_SUCCESS`. -/
def ssl_request (reqtype : String) (nowS nowV : Int) (w : World)
    (chan : List Nat) : Bool × World :=
  match ssl_request_body reqtype nowS nowV w chan with
  | Except.ok w2 => (EXIT_SUCCESS, w2)
  | Except.error _ => (EXIT_FAILURE, w)

/-! ## Codec lemmas -/

theorem leBytes_length (n s : Nat) : (leBytes n s).length = s := by
  induction s generalizing n with
  | zero => rfl
  | succ s ih => simp [leBytes, ih]

theorem leVal_leBytes (n s : Nat) : leVal (leBytes n s) = n % 256 ^ s := by
  induction s generalizing n with
  | zero => simp [leBytes, leVal, Nat.mod_one]
  | succ s ih =>
      have h1 : n % (256 * 256 ^ s) % 256 = n % 256 := Nat.mod_mul_right_mod n 256 (256 ^ s)
      have h2 : n % (256 * 256 ^ s) / 256 = n / 256 % 256 ^ s :=
        Nat.mod_mul_right_div_self n 256 (256 ^ s)
      have h3 : n % (256 * 256 ^ s) % 256 + 256 * (n % (256 * 256 ^ s) / 256)
          = n % (256 * 256 ^ s) := Nat.mod_add_div _ 256
      have h4 : 256 ^ (s + 1) = 256 * 256 ^ s := by ring
      simp only [leBytes, leVal, ih, h4]
      omega

theorem pow256_eq (s : Nat) : 256 ^ s = 2 ^ (8 * s) := by
  rw [pow_mul]
  norm_num

theorem wire_decode_int_unsigned (data : List Nat) :
    wire_decode_int data false = (leVal data : Int) := rfl

theorem wire_encode_int_unsigned (i : Int) (size : Nat) :
    wire_encode_int i size false =
      if 0 ≤ i ∧ i < (2 : Int) ^ (8 * size) then some (leBytes i.toNat size)
      else none := rfl

theorem leVal_lt (bs : List Nat) (hb : ∀ b ∈ bs, b < 256) :
    leVal bs < 256 ^ bs.length := by
  induction bs with
  | nil => simp [leVal]
  | cons b rest ih =>
      have hb0 : b < 256 := hb b (by simp)
      have hr : leVal rest < 256 ^ rest.length := ih (fun x hx => hb x (by simp [hx]))
      simp only [leVal, List.length_cons]
      have : 256 ^ (rest.length + 1) = 256 * 256 ^ rest.length := by ring
      omega

/-- Round trip for the signed 8-byte (timestamp) encoding. -/
theorem wire_8_signed_roundtrip (t : Int) (h1 : -(2 ^ 63) ≤ t) (h2 : t < 2 ^ 63) :
    ∃ tb, wire_encode_int t 8 true = some tb ∧ tb.length = 8 ∧
      wire_decode_int tb true = t := by
  have hg : -((2 : Int) ^ (8 * 8)) ≤ 2 * t ∧ 2 * t < (2 : Int) ^ (8 * 8) := by
    norm_num at h1 h2 ⊢
    omega
  refine ⟨leBytes (t % ((2 : Int) ^ (8 * 8))).toNat 8, ?_, leBytes_length _ _, ?_⟩
  · simp only [wire_encode_int, if_true, hg, and_self, if_pos]
  · have hlen : (leBytes (t % ((2 : Int) ^ (8 * 8))).toNat 8).length = 8 :=
      leBytes_length _ _
    simp only [wire_decode_int, hlen, leVal_leBytes, true_and]
    norm_num at hg ⊢
    omega

/-! ## Digest and request-shape lemmas -/

theorem sha256_length (msg : List Nat) : (sha256 msg).length = 32 := by
  simp [sha256, wordBE]

theorem hmac_sha256_length (key msg : List Nat) :
    (hmac_sha256 key msg).length = 32 :=
  sha256_length _

/-- Shape of `make_request` for the three valid kinds: the message is
`flag :: timestamp_bytes ++ hmac` whenever the timestamp is encodable. -/
theorem make_request_eq_of_kind (kind : String) (flag : Nat) (now : Int)
    (key : List Nat)
    (hk : (kind = "open" ∧ flag = FLAG_OPEN_REQ) ∨
          (kind = "close" ∧ flag = FLAG_CLOSE_REQ) ∨
          (kind = "keygen" ∧ flag = FLAG_KEYGEN_REQ))
    (h1 : -(2 ^ 63) ≤ now) (h2 : now < 2 ^ 63) :
    ∃ tb, wire_encode_int now 8 true = some tb ∧ tb.length = 8 ∧
      wire_decode_int tb true = now ∧
      make_request kind now key =
        some (flag :: tb ++ hmac_sha256 key (flag :: tb)) := by
  obtain ⟨tb, henc, hlen, hdec⟩ := wire_8_signed_roundtrip now h1 h2
  refine ⟨tb, henc, hlen, hdec, ?_⟩
  have e1 : wire_encode_int 255 1 false = some [255] := by decide
  have e2 : wire_encode_int 0 1 false = some [0] := by decide
  have e3 : wire_encode_int 170 1 false = some [170] := by decide
  rcases hk with ⟨hkind, hflag⟩ | ⟨hkind, hflag⟩ | ⟨hkind, hflag⟩ <;>
    subst hkind <;> subst hflag <;>
    simp [make_request, FLAG_OPEN_REQ, FLAG_CLOSE_REQ, FLAG_KEYGEN_REQ,
      e1, e2, e3, henc]

/-! ## `ssl_request` characterization lemmas -/

theorem ssl_request_mk_none (r : String) (nowS nowV : Int) (w : World)
    (chan : List Nat) (hm : make_request r nowS w.key = none) :
    ssl_request r nowS nowV w chan = (EXIT_FAILURE, w) := by
  simp [ssl_request, ssl_request_body, hm]

theorem ssl_request_toggle_eq (r : String) (hr : r = "open" ∨ r = "close")
    (nowS nowV : Int) (w : World) (chan : List Nat) (req : List Nat)
    (hm : make_request r nowS w.key = some req) :
    ssl_request r nowS nowV w chan =
      if wire_decode_int (chan.take 1) false = (FLAG_ALL_GOOD : Int) then
        (EXIT_SUCCESS, w)
      else (EXIT_FAILURE, w) := by
  rcases hr with h | h <;> subst h <;>
    by_cases hs : wire_decode_int (chan.take 1) false = (FLAG_ALL_GOOD : Int) <;>
    simp [ssl_request, ssl_request_body, hm, recvN, hs]

theorem ssl_request_keygen_eq (nowS nowV : Int) (w : World) (chan : List Nat)
    (req : List Nat) (hm : make_request "keygen" nowS w.key = some req) :
    ssl_request "keygen" nowS nowV w chan =
      if wire_decode_int (chan.take 1) false = (FLAG_KEYGEN_ACK : Int) then
        if timestamp_verify nowV ((chan.drop 1).take 8) = true then
          (EXIT_SUCCESS, write_key_to_file (((chan.drop 1).drop 8).take 32) w)
        else (EXIT_FAILURE, w)
      else (EXIT_FAILURE, w) := by
  by_cases ha : wire_decode_int (chan.take 1) false = (FLAG_KEYGEN_ACK : Int) <;>
    by_cases ht : timestamp_verify nowV (chan.tail.take 8) = true <;>
    simp [ssl_request, ssl_request_body, hm, recvN, ha, ht, List.drop_one]

/-! ## Claim theorems -/

/-- C3: for every valid request kind, key and representable timestamp, the
built request message is exactly the 41-byte concatenation
`flag(1) || timestamp(8, signed LE) || HMAC-SHA256(key, flag||timestamp)`,
with flag `open = 0xFF`, `close = 0x00`, `keygen = 0xAA`. -/
theorem make_request_shape (kind : String) (now : Int) (key : List Nat)
    (hk : kind = "open" ∨ kind = "close" ∨ kind = "keygen")
    (h1 : -(2 ^ 63) ≤ now) (h2 : now < 2 ^ 63) :
    ∃ flag tb,
      ((kind = "open" ∧ flag = 0xFF) ∨ (kind = "close" ∧ flag = 0x00) ∨
        (kind = "keygen" ∧ flag = 0xAA)) ∧
      wire_encode_int now 8 true = some tb ∧ tb.length = 8 ∧
      make_request kind now key =
        some (flag :: tb ++ hmac_sha256 key (flag :: tb)) ∧
      (flag :: tb ++ hmac_sha256 key (flag :: tb)).length = 41 := by
  have hlen : ∀ flag tb, (tb : List Nat).length = 8 →
      ((flag : Nat) :: tb ++ hmac_sha256 key (flag :: tb)).length = 41 := by
    intro flag tb htb
    simp [htb, hmac_sha256_length]
  rcases hk with h | h | h <;> subst h
  · obtain ⟨tb, henc, htb, _, hmk⟩ :=
      make_request_eq_of_kind "open" FLAG_OPEN_REQ now key
        (Or.inl ⟨rfl, rfl⟩) h1 h2
    exact ⟨0xFF, tb, Or.inl ⟨rfl, rfl⟩, henc, htb, hmk, hlen 0xFF tb htb⟩
  · obtain ⟨tb, henc, htb, _, hmk⟩ :=
      make_request_eq_of_kind "close" FLAG_CLOSE_REQ now key
        (Or.inr (Or.inl ⟨rfl, rfl⟩)) h1 h2
    exact ⟨0x00, tb, Or.inr (Or.inl ⟨rfl, rfl⟩), henc, htb, hmk,
      hlen 0x00 tb htb⟩
  · obtain ⟨tb, henc, htb, _, hmk⟩ :=
      make_request_eq_of_kind "keygen" FLAG_KEYGEN_REQ now key
        (Or.inr (Or.inr ⟨rfl, rfl⟩)) h1 h2
    exact ⟨0xAA, tb, Or.inr (Or.inr ⟨rfl, rfl⟩), henc, htb, hmk,
      hlen 0xAA tb htb⟩

theorem make_request_shape_witness :
    ∃ flag tb,
      ((("open" : String) = "open" ∧ flag = 0xFF) ∨
        (("open" : String) = "close" ∧ flag = 0x00) ∨
        (("open" : String) = "keygen" ∧ flag = 0xAA)) ∧
      wire_encode_int 0 8 true = some tb ∧ tb.length = 8 ∧
      make_request "open" 0 [] =
        some (flag :: tb ++ hmac_sha256 [] (flag :: tb)) ∧
      (flag :: tb ++ hmac_sha256 [] (flag :: tb)).length = 41 :=
  make_request_shape "open" 0 [] (Or.inl rfl) (by norm_num) (by norm_num)

/-- C4: the freshness check is a one-sided inclusive bound with
`MAX_AGE = 10`: it accepts iff `now - t ≤ 10`; a response exactly 10 s old
is accepted, 11 s old is rejected, and future timestamps are accepted. -/
theorem timestamp_verify_spec (now t : Int)
    (h1 : -(2 ^ 63) ≤ t) (h2 : t < 2 ^ 63) :
    MAX_AGE = 10 ∧
    ∃ tb, wire_encode_int t 8 true = some tb ∧
      ((timestamp_verify now tb = true) ↔ now - t ≤ 10) ∧
      (t = now - 10 → timestamp_verify now tb = true) ∧
      (t = now - 11 → timestamp_verify now tb = false) ∧
      (now < t → timestamp_verify now tb = true) := by
  obtain ⟨tb, henc, _, hdec⟩ := wire_8_signed_roundtrip t h1 h2
  have hiff : (timestamp_verify now tb = true) ↔ now - t ≤ 10 := by
    simp [timestamp_verify, MAX_AGE, hdec]
  refine ⟨rfl, tb, henc, hiff, ?_, ?_, ?_⟩
  · intro h
    exact hiff.mpr (by omega)
  · intro h
    simp only [timestamp_verify, MAX_AGE, hdec]
    simp only [decide_eq_false_iff_not]
    omega
  · intro h
    exact hiff.mpr (by omega)

theorem timestamp_verify_spec_witness :
    MAX_AGE = 10 ∧
    ∃ tb, wire_encode_int (-10) 8 true = some tb ∧
      ((timestamp_verify 0 tb = true) ↔ (0 : Int) - (-10) ≤ 10) ∧
      ((-10 : Int) = 0 - 10 → timestamp_verify 0 tb = true) ∧
      ((-10 : Int) = 0 - 11 → timestamp_verify 0 tb = false) ∧
      ((0 : Int) < -10 → timestamp_verify 0 tb = true) :=
  timestamp_verify_spec 0 (-10) (by norm_num) (by norm_num)

/-- C5: for every width and every value representable (unsigned) in that
width, decode ∘ encode is the identity; outside the representable range
the encoder fails. -/
theorem encode_decode_roundtrip (wd : Nat) (v : Int) :
    ((0 ≤ v ∧ v < (2 : Int) ^ (8 * wd)) →
      ∃ bs, wire_encode_int v wd false = some bs ∧ bs.length = wd ∧
        wire_decode_int bs false = v) ∧
    (¬(0 ≤ v ∧ v < (2 : Int) ^ (8 * wd)) →
      wire_encode_int v wd false = none) := by
  constructor
  · rintro ⟨hv0, hvlt⟩
    refine ⟨leBytes v.toNat wd, ?_, leBytes_length _ _, ?_⟩
    · rw [wire_encode_int_unsigned, if_pos ⟨hv0, hvlt⟩]
    · have h256 : ((256 ^ wd : Nat) : Int) = (2 : Int) ^ (8 * wd) := by
        push_cast
        rw [pow_mul]
        norm_num
      have hvlt2 : v < ((256 ^ wd : Nat) : Int) := by rw [h256]; exact hvlt
      have hless : v.toNat < 256 ^ wd := by omega
      rw [wire_decode_int_unsigned, leVal_leBytes, Nat.mod_eq_of_lt hless]
      omega
  · intro h
    rw [wire_encode_int_unsigned, if_neg h]

theorem encode_decode_roundtrip_witness :
    ∃ bs, wire_encode_int 255 1 false = some bs ∧ bs.length = 1 ∧
      wire_decode_int bs false = 255 :=
  (encode_decode_roundtrip 1 255).1 (by norm_num)

/-- C6 counterexample: decoding the zero-length byte string does not fail —
`int.from_bytes` of the empty byte string is total and returns the value 0
(both signednesses). -/
theorem decode_empty_cex :
    wire_decode_int [] false = 0 ∧ wire_decode_int [] true = 0 := by decide

/-- C6 amended: on zero-length input `wire_decode_int` returns 0 (it never
raises; the Python `int.from_bytes` is total, with no length limit). -/
theorem decode_empty_returns_zero (sgn : Bool) : wire_decode_int [] sgn = 0 := by
  cases sgn <;> rfl

/-- C7: for every kind other than the three enumerated variants,
`make_request` fails rather than producing a message (the flag stays
`None` and the encode step raises). -/
theorem make_request_unknown_kind (r : String) (now : Int) (key : List Nat)
    (h1 : r ≠ "open") (h2 : r ≠ "close") (h3 : r ≠ "keygen") :
    make_request r now key = none := by
  simp [make_request, h1, h2, h3]

theorem make_request_unknown_kind_witness :
    make_request "toggle" 0 [] = none :=
  make_request_unknown_kind "toggle" 0 [] (by decide) (by decide) (by decide)

/-- C8: `make_request` is deterministic — two runs on identical inputs
produce identical bytes. -/
theorem make_request_deterministic (kind : String) (now : Int)
    (key b1 b2 : List Nat) (h1 : make_request kind now key = some b1)
    (h2 : make_request kind now key = some b2) : b1 = b2 := by
  rw [h1] at h2
  exact Option.some.inj h2

theorem make_request_deterministic_witness :
    ∃ b1 b2, make_request "open" 0 [] = some b1 ∧
      make_request "open" 0 [] = some b2 ∧ b1 = b2 := by
  obtain ⟨tb, _, _, _, hmk⟩ :=
    make_request_eq_of_kind "open" FLAG_OPEN_REQ 0 []
      (Or.inl ⟨rfl, rfl⟩) (by norm_num) (by norm_num)
  exact ⟨_, _, hmk, hmk, make_request_deterministic "open" 0 [] _ _ hmk hmk⟩

/-- C1 counterexample: with a correct ack and a fresh timestamp but a
channel that yields only 3 of the requested 32 new-key bytes, the stored
key is still overwritten (and the exchange even reports success) — a
short read does not keep the old key. -/
theorem key_swap_short_read_cex :
    ((ssl_request "keygen" 0 0 ⟨[], [120]⟩
        (0x55 :: [0, 0, 0, 0, 0, 0, 0, 0] ++ [1, 2, 3])).1 = EXIT_SUCCESS) ∧
    ((ssl_request "keygen" 0 0 ⟨[], [120]⟩
        (0x55 :: [0, 0, 0, 0, 0, 0, 0, 0] ++ [1, 2, 3])).2.file ≠ [120]) ∧
    (((0x55 :: [0, 0, 0, 0, 0, 0, 0, 0] ++ [1, 2, 3]) : List Nat).drop 9).length
      < 32 := by decide

/-- C1 amended: if the ack byte is correct but the freshness check fails
the stored key is unchanged; the stored key changes only when the ack check
and the freshness check both succeed, and it is then overwritten with
whatever bytes (at most 32, possibly fewer) the final read returned. -/
theorem key_swap_characterization (nowS nowV : Int) (w : World)
    (chan : List Nat) :
    (ssl_request "keygen" nowS nowV w chan).2.file = w.file ∨
      (wire_decode_int (chan.take 1) false = (FLAG_KEYGEN_ACK : Int) ∧
       timestamp_verify nowV ((chan.drop 1).take 8) = true ∧
       (ssl_request "keygen" nowS nowV w chan).2.file =
         b64e (((chan.drop 1).drop 8).take 32)) := by
  cases hm : make_request "keygen" nowS w.key with
  | none => rw [ssl_request_mk_none "keygen" nowS nowV w chan hm]; left; rfl
  | some req =>
      rw [ssl_request_keygen_eq nowS nowV w chan req hm]
      by_cases ha : wire_decode_int (chan.take 1) false = (FLAG_KEYGEN_ACK : Int)
      · by_cases ht : timestamp_verify nowV ((chan.drop 1).take 8) = true
        · right
          refine ⟨ha, ht, ?_⟩
          rw [if_pos ha, if_pos ht]
          rfl
        · left
          rw [if_pos ha, if_neg ht]
      · left
        rw [if_neg ha]

/-- C2: `ssl_request` reports success exactly when every validation step
for the request kind passed — for open/close the single status byte decodes
to the all-good sentinel `0xFF`; for keygen the ack byte decodes to `0x55`
and the response timestamp passes the freshness check.  Any sentinel
mismatch, stale timestamp, or short read (decoding to a non-sentinel value)
yields `EXIT_FAILURE`. -/
theorem ssl_request_success_iff (nowS nowV : Int) (w : World)
    (chan : List Nat) (h1 : -(2 ^ 63) ≤ nowS) (h2 : nowS < 2 ^ 63) :
    ((ssl_request "open" nowS nowV w chan).1 = EXIT_SUCCESS ↔
      wire_decode_int (chan.take 1) false = (FLAG_ALL_GOOD : Int)) ∧
    ((ssl_request "close" nowS nowV w chan).1 = EXIT_SUCCESS ↔
      wire_decode_int (chan.take 1) false = (FLAG_ALL_GOOD : Int)) ∧
    ((ssl_request "keygen" nowS nowV w chan).1 = EXIT_SUCCESS ↔
      (wire_decode_int (chan.take 1) false = (FLAG_KEYGEN_ACK : Int) ∧
       timestamp_verify nowV ((chan.drop 1).take 8) = true)) := by
  obtain ⟨tb1, _, _, _, hmk1⟩ :=
    make_request_eq_of_kind "open" FLAG_OPEN_REQ nowS w.key
      (Or.inl ⟨rfl, rfl⟩) h1 h2
  obtain ⟨tb2, _, _, _, hmk2⟩ :=
    make_request_eq_of_kind "close" FLAG_CLOSE_REQ nowS w.key
      (Or.inr (Or.inl ⟨rfl, rfl⟩)) h1 h2
  obtain ⟨tb3, _, _, _, hmk3⟩ :=
    make_request_eq_of_kind "keygen" FLAG_KEYGEN_REQ nowS w.key
      (Or.inr (Or.inr ⟨rfl, rfl⟩)) h1 h2
  refine ⟨?_, ?_, ?_⟩
  · rw [ssl_request_toggle_eq "open" (Or.inl rfl) nowS nowV w chan _ hmk1]
    by_cases hs : wire_decode_int (chan.take 1) false = (FLAG_ALL_GOOD : Int) <;>
      simp [hs, EXIT_SUCCESS, EXIT_FAILURE]
  · rw [ssl_request_toggle_eq "close" (Or.inr rfl) nowS nowV w chan _ hmk2]
    by_cases hs : wire_decode_int (chan.take 1) false = (FLAG_ALL_GOOD : Int) <;>
      simp [hs, EXIT_SUCCESS, EXIT_FAILURE]
  · rw [ssl_request_keygen_eq nowS nowV w chan _ hmk3]
    by_cases ha : wire_decode_int (chan.take 1) false = (FLAG_KEYGEN_ACK : Int) <;>
      by_cases ht : timestamp_verify nowV (chan.tail.take 8) = true <;>
      simp [ha, ht, EXIT_SUCCESS, EXIT_FAILURE, List.drop_one]

theorem ssl_request_success_iff_witness :
    ((ssl_request "open" 0 0 ⟨[], []⟩ [0xFF]).1 = EXIT_SUCCESS ↔
      wire_decode_int (([0xFF] : List Nat).take 1) false = (FLAG_ALL_GOOD : Int)) ∧
    ((ssl_request "close" 0 0 ⟨[], []⟩ [0xFF]).1 = EXIT_SUCCESS ↔
      wire_decode_int (([0xFF] : List Nat).take 1) false = (FLAG_ALL_GOOD : Int)) ∧
    ((ssl_request "keygen" 0 0 ⟨[], []⟩ [0xFF]).1 = EXIT_SUCCESS ↔
      (wire_decode_int (([0xFF] : List Nat).take 1) false = (FLAG_KEYGEN_ACK : Int) ∧
       timestamp_verify 0 ((([0xFF] : List Nat).drop 1).take 8) = true)) :=
  ssl_request_success_iff 0 0 ⟨[], []⟩ [0xFF] (by norm_num) (by norm_num)

/-- C9: a key-rotation exchange never touches the in-memory `KEY`: after a
successful keygen only the key file changes, and every subsequent
`make_request` in the same process still authenticates with the old key. -/
theorem keygen_preserves_inmemory_key (nowS nowV : Int) (w : World)
    (chan : List Nat)
    (hs : (ssl_request "keygen" nowS nowV w chan).1 = EXIT_SUCCESS) :
    (ssl_request "keygen" nowS nowV w chan).2.key = w.key ∧
    (ssl_request "keygen" nowS nowV w chan).2.file =
      b64e (((chan.drop 1).drop 8).take 32) ∧
    (∀ r n, make_request r n (ssl_request "keygen" nowS nowV w chan).2.key =
      make_request r n w.key) := by
  have hkey : ∀ res : Bool × World,
      ssl_request "keygen" nowS nowV w chan = res →
      res.2.key = w.key := by
    intro res hres
    cases hm : make_request "keygen" nowS w.key with
    | none =>
        rw [ssl_request_mk_none "keygen" nowS nowV w chan hm] at hres
        rw [← hres]
    | some req =>
        rw [ssl_request_keygen_eq nowS nowV w chan req hm] at hres
        by_cases ha : wire_decode_int (chan.take 1) false = (FLAG_KEYGEN_ACK : Int)
        · by_cases ht : timestamp_verify nowV ((chan.drop 1).take 8) = true
          · rw [if_pos ha, if_pos ht] at hres
            rw [← hres]
            rfl
          · rw [if_pos ha, if_neg ht] at hres
            rw [← hres]
        · rw [if_neg ha] at hres
          rw [← hres]
  have hk := hkey _ rfl
  refine ⟨hk, ?_, fun r n => by rw [hk]⟩
  cases hm : make_request "keygen" nowS w.key with
  | none =>
      rw [ssl_request_mk_none "keygen" nowS nowV w chan hm] at hs ⊢
      exact absurd hs (by simp [EXIT_FAILURE, EXIT_SUCCESS])
  | some req =>
      rw [ssl_request_keygen_eq nowS nowV w chan req hm] at hs ⊢
      by_cases ha : wire_decode_int (chan.take 1) false = (FLAG_KEYGEN_ACK : Int)
      · by_cases ht : timestamp_verify nowV ((chan.drop 1).take 8) = true
        · rw [if_pos ha, if_pos ht]
          rfl
        · rw [if_pos ha, if_neg ht] at hs
          exact absurd hs (by simp [EXIT_FAILURE, EXIT_SUCCESS])
      · rw [if_neg ha] at hs
        exact absurd hs (by simp [EXIT_FAILURE, EXIT_SUCCESS])

theorem keygen_preserves_inmemory_key_witness :
    (ssl_request "keygen" 0 0 ⟨[5], [120]⟩
        (0x55 :: [0, 0, 0, 0, 0, 0, 0, 0] ++ List.replicate 32 7)).2.key = [5] ∧
    (ssl_request "keygen" 0 0 ⟨[5], [120]⟩
        (0x55 :: [0, 0, 0, 0, 0, 0, 0, 0] ++ List.replicate 32 7)).2.file =
      b64e (List.take 32 (List.drop 8 (List.drop 1
        (0x55 :: [0, 0, 0, 0, 0, 0, 0, 0] ++ List.replicate 32 7)))) ∧
    (∀ r n, make_request r n
        (ssl_request "keygen" 0 0 ⟨[5], [120]⟩
          (0x55 :: [0, 0, 0, 0, 0, 0, 0, 0] ++ List.replicate 32 7)).2.key =
      make_request r n [5]) :=
  keygen_preserves_inmemory_key 0 0 ⟨[5], [120]⟩
    (0x55 :: [0, 0, 0, 0, 0, 0, 0, 0] ++ List.replicate 32 7) (by decide)

/-- C10: `ssl_request` is total — it always returns `EXIT_SUCCESS` or
`EXIT_FAILURE`, and any exception raised inside the exchange (modelled by
`Except.error` in the body) is caught and converted to `EXIT_FAILURE`
with the state unchanged; no exception propagates to the caller. -/
theorem ssl_request_total (r : String) (nowS nowV : Int) (w : World)
    (chan : List Nat) :
    ((ssl_request r nowS nowV w chan).1 = EXIT_SUCCESS ∨
     (ssl_request r nowS nowV w chan).1 = EXIT_FAILURE) ∧
    (∀ e, ssl_request_body r nowS nowV w chan = Except.error e →
      ssl_request r nowS nowV w chan = (EXIT_FAILURE, w)) := by
  constructor
  · unfold ssl_request
    cases ssl_request_body r nowS nowV w chan with
    | ok w2 => left; rfl
    | error e => right; rfl
  · intro e he
    unfold ssl_request
    rw [he]

theorem ssl_request_total_witness :
    ssl_request "foo" 0 0 ⟨[], []⟩ [] = (EXIT_FAILURE, ⟨[], []⟩) :=
  (ssl_request_total "foo" 0 0 ⟨[], []⟩ []).2 "make_request raised" rfl

end SecLabBot
